import Mathlib

/-!
Verification development for the hh.ru vacancy scraper (src/api.py, src/main.py).

The Python program is a single-threaded ETL job: an API client (`ApiHhRu`)
with a token-refresh-on-401 retry, a pagination loop over vacancy pages,
a per-day deduplicating persistence step, and a top-level sweep orchestrator.

Shallow embedding conventions:
- HTTP calls are modelled by explicit environment parameters: a page-response
  function for pagination, `HttpResult` / `PostResult` values for single calls.
- The mutable client state (access token, authorization header, the token
  persisted to the .env file) is an explicit `ClientState` record threaded
  through the functions that mutate it.
- The document store is a list of stored documents; `db.insert_one` failures
  (a raised exception in Python) are modelled by an `insert_ok` oracle.
- Telegram notifications are modelled by returning the list of messages sent.
- The unbounded `while` loop of `fetch_all_vacancies` is modelled with an
  explicit fuel parameter; termination claims become fuel-stabilisation
  theorems.
-/

set_option autoImplicit false

namespace HhScraper

/-- One country record as returned by `GET /areas/countries`; the code reads
the fields `name` and `url`. -/
structure Country where
  name : String
  url : String
  deriving DecidableEq, Repr

/-- Embeds `ApiHhRu.find_country_url` (src/api.py:102-105): linear scan of the fetched
country list, returning the `url` of the first country whose `name` equals
`country_name`, and the empty string when none matches. The Python code obtains
`countries` from `fetch_countries()`; here the list is a parameter. -/
def find_country_url (countries : List Country) (country_name : String) : String :=
  match countries.find? (fun country => country.name == country_name) with
  | some country => country.url
  | none => ""

/-- One page response body of `GET /vacancies`, as far as the code inspects it:
an optional `items` field (absent models `'items' not in data`) and an optional
`pages` field (absent models `data.get('pages', 1)` taking the default). -/
structure PageData (α : Type) where
  items : Option (List α)
  pages : Option Nat
  deriving DecidableEq, Repr

/-- The body of the `while page < total_pages` loop of
`ApiHhRu.fetch_all_vacancies` (src/api.py:138-154), with explicit fuel.
`resp p` is the result of `get_vacancies area_id professional_role_id p`
(`none` models a failed request). -/
def fetchLoop {α : Type} (resp : Nat → Option (PageData α)) :
    Nat → Nat → Nat → List α → List α
  | 0, _, _, vacancies => vacancies
  | fuel + 1, page, total_pages, vacancies =>
    if page < total_pages then
      match resp page with
      | none => vacancies
      | some data =>
        match data.items with
        | none => vacancies
        | some items =>
          fetchLoop resp fuel (page + 1) (data.pages.getD 1) (vacancies ++ items)
    else vacancies

/-- Embeds `ApiHhRu.fetch_all_vacancies` (src/api.py:138-154): starts with
`vacancies, page, total_pages = [], 0, 1` and runs the loop. -/
def fetch_all_vacancies {α : Type} (resp : Nat → Option (PageData α))
    (fuel : Nat) : List α :=
  fetchLoop resp fuel 0 1 []

/-- Constant page-response environment in which every page reports
`pages = 0` with well-formed items; used to probe the `pages = 0` edge
of the pagination loop. -/
def respZero : Nat → Option (PageData Nat) :=
  fun _ => some ⟨some [42], some 0⟩

/-- Page items for the spec's 210-element example: 100 items on pages 0 and 1,
10 items on page 2. -/
def its210 : Nat → List Nat :=
  fun p => if p = 2 then List.replicate 10 0 else List.replicate 100 0

/-- Page-response environment for the spec's 210-element example: every page
reports `pages = 3` and carries `its210 p` as items. -/
def resp210 : Nat → Option (PageData Nat) :=
  fun p => some ⟨some (its210 p), some 3⟩

/-- Constant consistent page-response environment (every page reports
`pages = 3`), used to witness the termination theorem. -/
def respC3 : Nat → Option (PageData Nat) :=
  fun p => some ⟨some [p], some 3⟩

/-- The mutable state of an `ApiHhRu` instance that `refresh_access_token`
touches: `self.ACCESS_TOKEN`, the `Authorization` entry of `self.headers`,
and the `HH_RU_ACCESS_TOKEN` value persisted to the .env file via `set_key`. -/
structure ClientState where
  ACCESS_TOKEN : String
  authorization : String
  env_access_token : String
  deriving DecidableEq, Repr

/-- Outcome of the `requests.post` call in `refresh_access_token`
(src/api.py:46-77): a transport-level failure (a raised
`RequestException`, which also covers a JSON decode error), or a response
with a status code and an optional `access_token` field in its JSON body. -/
inductive PostResult where
  | transportError
  | response (status : Nat) (access_token : Option String)
  deriving DecidableEq, Repr

/-- Embeds `ApiHhRu.refresh_access_token` (src/api.py:46-77). `raise_for_status`
raises for any status ≥ 400, which the `except` clause turns into `False`.
On a 2xx response whose body carries a truthy `access_token` (Python's
`if new_access_token:` — a missing key and an empty string are both falsy),
the in-memory token, the authorization header and the persisted .env value
are all replaced and the method returns `True`; otherwise `False` with no
state change. -/
def refresh_access_token (post : PostResult) (st : ClientState) :
    Bool × ClientState :=
  match post with
  | .transportError => (false, st)
  | .response status tok =>
    if 400 ≤ status then (false, st)
    else
      match tok with
      | none => (false, st)
      | some new_access_token =>
        if new_access_token = "" then (false, st)
        else
          (true,
            { ACCESS_TOKEN := new_access_token
              authorization := "Bearer " ++ new_access_token
              env_access_token := new_access_token })

/-- Outcome of a `requests.get` call in `ApiHhRu._get`: a transport-level
failure (raised `RequestException`) or a response with a status code and a
JSON body. -/
inductive HttpResult (α : Type) where
  | transportError
  | response (status : Nat) (body : α)
  deriving DecidableEq, Repr

/-- Observable trace of one `_get` call: the value returned to the caller
(`none` models Python's `None`), how many `refresh_access_token` attempts were
made, and the `Authorization` header used by each `requests.get` performed,
in order. -/
structure GetTrace (α : Type) where
  result : Option α
  refresh_attempts : Nat
  get_headers : List String
  deriving DecidableEq, Repr

/-- Embeds `ApiHhRu._get` (src/api.py:79-96). `net h` is the outcome of
`requests.get(url, headers={Authorization: h}, params=params)` — the same URL
and params on both attempts, only the header can change; `post` is the
environment for the embedded `refresh_access_token` call. A 401 first
response triggers one refresh and, if the refresh succeeds, one retry with
the refreshed header; `raise_for_status` then maps any status ≥ 400 (a second
401 included) to the caught-exception path returning `none`. -/
def _get {α : Type} (net : String → HttpResult α) (post : PostResult)
    (st : ClientState) : GetTrace α × ClientState :=
  match net st.authorization with
  | .transportError => (⟨none, 0, [st.authorization]⟩, st)
  | .response status body =>
    if status = 401 then
      match refresh_access_token post st with
      | (true, st') =>
        match net st'.authorization with
        | .transportError =>
          (⟨none, 1, [st.authorization, st'.authorization]⟩, st')
        | .response status₂ body₂ =>
          if 400 ≤ status₂ then
            (⟨none, 1, [st.authorization, st'.authorization]⟩, st')
          else
            (⟨some body₂, 1, [st.authorization, st'.authorization]⟩, st')
      | (false, st') => (⟨none, 1, [st.authorization]⟩, st')
    else if 400 ≤ status then (⟨none, 0, [st.authorization]⟩, st)
    else (⟨some body, 0, [st.authorization]⟩, st)

/-- Concrete client state used by the `_get` and `refresh_access_token`
witnesses. -/
def stW : ClientState := ⟨"old", "Bearer old", "old"⟩

/-- Concrete network environment for the `_get` witness: the stale header
gets 401, the refreshed header gets 200. -/
def netW : String → HttpResult Nat :=
  fun h => if h = "Bearer new" then .response 200 7 else .response 401 0

/-- Concrete refresh environment for the `_get` witness: the OAuth endpoint
answers 200 with a new token. -/
def postW : PostResult := .response 200 (some "new")

/-- One vacancy as fetched from the upstream service, as far as the code
inspects it: an `id` field (used for deduplication) and a `url` field (used
in the insert-failure log line). -/
structure Vacancy where
  id : Nat
  url : String
  deriving DecidableEq, Repr

/-- A vacancy document as stored by `save_vacancies_to_db`: the fetched
fields plus the two stamped fields `entry_date` (the current UTC calendar
day formatted `DD.MM.YYYY`) and `area_name`. -/
structure StoredVacancy where
  id : Nat
  url : String
  entry_date : String
  area_name : String
  deriving DecidableEq, Repr

/-- The field augmentation of src/api.py:161-162:
`vacancy['entry_date'] = datetime.utcnow().strftime('%d.%m.%Y')` (here the
parameter `today`) and `vacancy['area_name'] = area_name`. -/
def stamp (today area_name : String) (v : Vacancy) : StoredVacancy :=
  { id := v.id, url := v.url, entry_date := today, area_name := area_name }

/-- Embeds `db.find_one({"id": i, "entry_date": d})` (src/api.py:164), truthiness of
the result: does some stored document match both fields. -/
def find_one (db : List StoredVacancy) (i : Nat) (d : String) : Bool :=
  db.any fun doc => doc.id == i && doc.entry_date == d

/-- The loop state of `save_vacancies_to_db`: the document collection and the
two counters `inserted` and `duplicates`. -/
structure SaveState where
  db : List StoredVacancy
  inserted : Nat
  duplicates : Nat
  deriving DecidableEq, Repr

/-- One iteration of the `for vacancy in vacancies` loop of
`save_vacancies_to_db` (src/api.py:160-172). `insert_ok doc = false` models
`db.insert_one(vacancy)` raising: the error is logged and neither counter
moves. A successful insert appends the document to the collection. -/
def saveStep (insert_ok : StoredVacancy → Bool) (today area_name : String)
    (st : SaveState) (v : Vacancy) : SaveState :=
  let doc := stamp today area_name v
  if find_one st.db doc.id doc.entry_date then
    { st with duplicates := st.duplicates + 1 }
  else if insert_ok doc then
    { st with db := st.db ++ [doc], inserted := st.inserted + 1 }
  else st

/-- The full `for vacancy in vacancies` loop of `save_vacancies_to_db`. -/
def saveLoop (insert_ok : StoredVacancy → Bool) (today area_name : String)
    (vacancies : List Vacancy) (st : SaveState) : SaveState :=
  vacancies.foldl (saveStep insert_ok today area_name) st

/-- Embeds `ApiHhRu.save_vacancies_to_db` (src/api.py:156-175): runs the loop from
zeroed counters over the given collection, then sends exactly one Telegram
summary message; the messages sent are returned alongside the final state. -/
def save_vacancies_to_db (insert_ok : StoredVacancy → Bool) (today : String)
    (vacancies : List Vacancy) (area_name : String)
    (db : List StoredVacancy) : SaveState × List String :=
  let st := saveLoop insert_ok today area_name vacancies ⟨db, 0, 0⟩
  (st, ["Inserted: " ++ toString st.inserted ++ ", Duplicates: "
          ++ toString st.duplicates])

/-- The number of listings in `vacancies` whose `db.insert_one` call raises
when `save_vacancies_to_db`'s loop runs from state `st`: a listing counts
exactly when it is not skipped as a duplicate and `insert_ok` rejects its
stamped document. -/
def failCount (insert_ok : StoredVacancy → Bool) (today area_name : String)
    (st : SaveState) : List Vacancy → Nat
  | [] => 0
  | v :: vs =>
    let doc := stamp today area_name v
    (if find_one st.db doc.id doc.entry_date = false ∧ insert_ok doc = false
      then 1 else 0)
      + failCount insert_ok today area_name
          (saveStep insert_ok today area_name st v) vs

/-- No two documents of the collection share both `id` and `entry_date`. -/
def NoDupKeys (db : List StoredVacancy) : Prop :=
  db.Pairwise fun a b => ¬(a.id = b.id ∧ a.entry_date = b.entry_date)

/-- The ingestion day used by the persistence witnesses. -/
def todayW : String := "02.01.2025"

/-- The area name used by the persistence witnesses. -/
def areaNameW : String := "Perm"

/-- A vacancy used by the persistence witnesses; its id 5 already appears in
`dbW` under the previous calendar day. -/
def vW : Vacancy := ⟨5, "https://hh.ru/vacancy/5"⟩

/-- A one-document collection stored on the previous calendar day. -/
def dbW : List StoredVacancy :=
  [⟨5, "https://hh.ru/vacancy/5", "01.01.2025", "Perm"⟩]

/-- Insert oracle that raises exactly on documents with id 7. -/
def okW : StoredVacancy → Bool := fun doc => !(doc.id == 7)

/-- A vacancy whose insert fails under `okW`. -/
def v7 : Vacancy := ⟨7, "https://hh.ru/vacancy/7"⟩

/-- A vacancy whose insert succeeds under `okW`. -/
def v8 : Vacancy := ⟨8, "https://hh.ru/vacancy/8"⟩

/-- One professional role, as far as the code inspects it: `role['id']` and
`role['name']`. -/
structure Role where
  id : Nat
  name : String
  deriving DecidableEq, Repr

/-- One role category as returned by `GET /professional_roles`; the code
reads only `category['roles']`. -/
structure Category where
  roles : List Role
  deriving DecidableEq, Repr

/-- The inner `for role in category['roles']` loop of the deduplication in
`fetch_and_store_vacancies` (src/api.py:193-199): threads the
`unique_role_ids` set (as a list with membership semantics) and builds
`unique_roles_in_category` in order. -/
def dedupRolesInCategory (unique_role_ids : List Nat) :
    List Role → List Nat × List Role
  | [] => (unique_role_ids, [])
  | role :: roles =>
    if role.id ∈ unique_role_ids then
      dedupRolesInCategory unique_role_ids roles
    else
      let (ids, kept) := dedupRolesInCategory (role.id :: unique_role_ids) roles
      (ids, role :: kept)

/-- The outer `for category in professional_roles` loop of the deduplication
(src/api.py:189-201): a category survives into `filtered_roles` only if it
kept at least one role. -/
def filterRoles (unique_role_ids : List Nat) :
    List Category → List Category
  | [] => []
  | category :: categories =>
    let (ids, kept) := dedupRolesInCategory unique_role_ids category.roles
    let rest := filterRoles ids categories
    if kept = [] then rest else { roles := kept } :: rest

/-- The ids of a role list, in order. -/
def roleIds (roles : List Role) : List Nat :=
  roles.map Role.id

/-- Modelled from the spec's wording for the per-category working set: keep
exactly those roles whose id did not occur earlier, where `earlier` collects
every id that occurred before the current position (in earlier categories or
earlier in the same category), whether or not that occurrence was kept. -/
def specKeep (earlier : List Nat) : List Role → List Role
  | [] => []
  | role :: roles =>
    (if role.id ∈ earlier then [] else [role])
      ++ specKeep (earlier ++ [role.id]) roles

/-- Modelled from the spec's wording for the whole working set: per category,
keep the roles that `specKeep` retains relative to all ids occurring in
earlier categories; categories left with no roles are dropped. -/
def specFilterCats (earlier : List Nat) : List Category → List Category
  | [] => []
  | category :: categories =>
    let kept := specKeep earlier category.roles
    let rest := specFilterCats (earlier ++ roleIds category.roles) categories
    if kept = [] then rest else { roles := kept } :: rest

/-- Concrete country list used to witness the `find_country_url` theorem. -/
def countriesW : List Country :=
  [⟨"France", "https://api.hh.ru/areas/16"⟩,
   ⟨"Russia", "https://api.hh.ru/areas/113"⟩,
   ⟨"Russia", "https://api.hh.ru/areas/999"⟩]

/-- One geographic area, as far as the code inspects it: `area['id']` and
`area['name']`. -/
structure Area where
  id : Nat
  name : String
  deriving DecidableEq, Repr

/-- Area list used by the sweep witness. -/
def areasW : List Area := [⟨1, "Perm"⟩]

/-- Role categories used by the sweep witness. -/
def catsW : List Category := [⟨[⟨10, "Dev"⟩, ⟨11, "QA"⟩]⟩]

/-- Fetch environment used by the sweep witness: every (area, role) pair
yields the single vacancy `v7` (whose insert fails under `okW`). -/
def fetchResW : Nat → Nat → List Vacancy := fun _ _ => [v7]

/-- Observable outcome of one sweep of `fetch_and_store_vacancies`: the final
document collection, the Telegram messages sent in order, and the
(area id, role id) pairs for which `fetch_all_vacancies` was invoked, in
order. -/
structure SweepResult where
  db : List StoredVacancy
  notifications : List String
  fetched_pairs : List (Nat × Nat)
  deriving DecidableEq, Repr

/-- The innermost `for role in category['roles']` body of the sweep
(src/api.py:207-211): notify, fetch all vacancies for the (area, role) pair
(`fetchRes a r` abstracts the result of `fetch_all_vacancies(a, r)`), then
persist them with `save_vacancies_to_db`. -/
def processRole (fetchRes : Nat → Nat → List Vacancy)
    (insert_ok : StoredVacancy → Bool) (today : String) (area : Area)
    (acc : SweepResult) (role : Role) : SweepResult :=
  let note := "Fetching vacancies for role " ++ role.name
    ++ " (ID: " ++ toString role.id ++ ")"
  let vacancies := fetchRes area.id role.id
  let (st, msgs) :=
    save_vacancies_to_db insert_ok today vacancies area.name acc.db
  { db := st.db
    notifications := acc.notifications ++ [note] ++ msgs
    fetched_pairs := acc.fetched_pairs ++ [(area.id, role.id)] }

/-- The `for category in filtered_roles` body of the sweep (src/api.py:206). -/
def processCategory (fetchRes : Nat → Nat → List Vacancy)
    (insert_ok : StoredVacancy → Bool) (today : String) (area : Area)
    (acc : SweepResult) (category : Category) : SweepResult :=
  category.roles.foldl (processRole fetchRes insert_ok today area) acc

/-- The `for area in areas` body of the sweep (src/api.py:203-211): notify,
then walk all surviving categories. -/
def processArea (fetchRes : Nat → Nat → List Vacancy)
    (insert_ok : StoredVacancy → Bool) (today : String)
    (filtered_roles : List Category) (acc : SweepResult) (area : Area) :
    SweepResult :=
  let note := "Processing area " ++ area.name
    ++ " (ID: " ++ toString area.id ++ ")"
  filtered_roles.foldl
    (processCategory fetchRes insert_ok today area)
    { acc with notifications := acc.notifications ++ [note] }

/-- Embeds `ApiHhRu.fetch_and_store_vacancies` (src/api.py:177-211). `areas` stands
for the result of `fetch_areas()` and `professional_roles` for the result of
`fetch_professional_roles()`; an empty value of either aborts the sweep with
nothing fetched, nothing written and nothing sent. Otherwise roles are
deduplicated and the area × role product is walked. -/
def fetch_and_store_vacancies (fetchRes : Nat → Nat → List Vacancy)
    (insert_ok : StoredVacancy → Bool) (today : String) (areas : List Area)
    (professional_roles : List Category) (db : List StoredVacancy) :
    SweepResult :=
  if areas = [] then ⟨db, [], []⟩
  else if professional_roles = [] then ⟨db, [], []⟩
  else
    let filtered_roles := filterRoles [] professional_roles
    areas.foldl (processArea fetchRes insert_ok today filtered_roles)
      ⟨db, [], []⟩

lemma fetchLoop_stop {α : Type} (resp : Nat → Option (PageData α))
    (fuel page total_pages : Nat) (acc : List α) (h : ¬ page < total_pages) :
    fetchLoop resp fuel page total_pages acc = acc := by
  cases fuel <;> simp [fetchLoop, h]

lemma fetchLoop_stab {α : Type} (resp : Nat → Option (PageData α)) (P : Nat)
    (hP : ∀ p data, resp p = some data → (PageData.items data).isSome = true →
      (PageData.pages data).getD 1 = P) :
    ∀ fuel₁ fuel₂ page acc, P - page ≤ fuel₁ → P - page ≤ fuel₂ →
      fetchLoop resp fuel₁ page P acc = fetchLoop resp fuel₂ page P acc := by
  intro fuel₁
  induction fuel₁ with
  | zero =>
    intro fuel₂ page acc h₁ h₂
    have hstop : ¬ page < P := by omega
    rw [fetchLoop_stop resp 0 page P acc hstop, fetchLoop_stop resp fuel₂ page P acc hstop]
  | succ f ih =>
    intro fuel₂ page acc h₁ h₂
    by_cases hlt : page < P
    · obtain ⟨g, rfl⟩ : ∃ g, fuel₂ = g + 1 := by
        cases fuel₂ with
        | zero => omega
        | succ g => exact ⟨g, rfl⟩
      simp only [fetchLoop, if_pos hlt]
      cases hresp : resp page with
      | none => rfl
      | some data =>
        obtain ⟨itemsOpt, pagesOpt⟩ := data
        cases itemsOpt with
        | none => rfl
        | some items =>
          have hpages : pagesOpt.getD 1 = P :=
            hP page ⟨some items, pagesOpt⟩ hresp rfl
          dsimp only
          rw [hpages]
          exact ih g (page + 1) (acc ++ items) (by omega) (by omega)
    · rw [fetchLoop_stop resp (f + 1) page P acc hlt,
        fetchLoop_stop resp fuel₂ page P acc hlt]

lemma fetchLoop_concat {α : Type} (resp : Nat → Option (PageData α)) (P : Nat)
    (its : Nat → List α)
    (h : ∀ p, p < P → resp p = some ⟨some (its p), some P⟩) :
    ∀ fuel page acc, P - page ≤ fuel →
      fetchLoop resp fuel page P acc =
        acc ++ ((List.range' page (P - page)).map its).flatten := by
  intro fuel
  induction fuel with
  | zero =>
    intro page acc hfuel
    have hstop : ¬ page < P := by omega
    have hr : P - page = 0 := by omega
    rw [fetchLoop_stop resp 0 page P acc hstop, hr]
    simp
  | succ f ih =>
    intro page acc hfuel
    by_cases hlt : page < P
    · simp only [fetchLoop, if_pos hlt, h page hlt, Option.getD_some]
      rw [ih (page + 1) (acc ++ its page) (by omega)]
      have hr : P - page = (P - (page + 1)) + 1 := by omega
      rw [hr, List.range'_succ]
      simp
    · have hr : P - page = 0 := by omega
      rw [fetchLoop_stop resp (f + 1) page P acc hlt, hr]
      simp

/-- Claim C3: `fetch_all_vacancies` terminates whenever every well-formed page
response reports the same effective total-pages value `P` (malformed or absent
responses are allowed and only stop the loop early): once the fuel reaches
`P + 1` the fuel-indexed loop has stabilised, i.e. the bounded loop computes
the value of the unbounded Python `while` loop. -/
theorem C3_fetch_all_vacancies_terminates {α : Type}
    (resp : Nat → Option (PageData α)) (P : Nat)
    (hP : ∀ p data, resp p = some data → (PageData.items data).isSome = true →
      (PageData.pages data).getD 1 = P)
    (fuel₁ fuel₂ : Nat) (h₁ : P + 1 ≤ fuel₁) (h₂ : P + 1 ≤ fuel₂) :
    fetch_all_vacancies resp fuel₁ = fetch_all_vacancies resp fuel₂ := by
  obtain ⟨f, rfl⟩ : ∃ f, fuel₁ = f + 1 := ⟨fuel₁ - 1, by omega⟩
  obtain ⟨g, rfl⟩ : ∃ g, fuel₂ = g + 1 := ⟨fuel₂ - 1, by omega⟩
  unfold fetch_all_vacancies
  simp only [fetchLoop, if_pos (show (0 : Nat) < 1 by omega)]
  cases hresp : resp 0 with
  | none => rfl
  | some data =>
    obtain ⟨itemsOpt, pagesOpt⟩ := data
    cases itemsOpt with
    | none => rfl
    | some items =>
      have hpages : pagesOpt.getD 1 = P := hP 0 ⟨some items, pagesOpt⟩ hresp rfl
      dsimp only
      rw [hpages]
      exact fetchLoop_stab resp P hP f g 1 ([] ++ items) (by omega) (by omega)

/-- Claim C3 witness: a concrete consistent environment (every page reports
`pages = 3`), evaluated at two different sufficient fuels. -/
theorem C3_witness :
    (∀ p data, respC3 p = some data →
        (PageData.items data).isSome = true → (PageData.pages data).getD 1 = 3)
    ∧ fetch_all_vacancies respC3 4 = fetch_all_vacancies respC3 9 := by
  have h : ∀ p data, respC3 p = some data →
      (PageData.items data).isSome = true → (PageData.pages data).getD 1 = 3 := by
    intro p data hd hi
    have hval : respC3 p = some (⟨some [p], some 3⟩ : PageData Nat) := rfl
    rw [hval] at hd
    rw [Option.some.inj hd.symm]
    rfl
  exact ⟨h, C3_fetch_all_vacancies_terminates respC3 3 h 4 9 (by omega) (by omega)⟩

/-- Claim C2 counterexample: with every page reporting the consistent value
`pages = 0` and well-formed items, the code still returns page 0's items
(the loop enters with the initial `total_pages = 1` before reading the
reported total), while the concatenation of the items of pages `0..P-1` is
the empty list. -/
theorem C2_counterexample :
    (∀ p, ∃ data, respZero p = some data
        ∧ PageData.items data = some [42] ∧ PageData.pages data = some 0)
    ∧ fetch_all_vacancies respZero 5 = [42]
    ∧ fetch_all_vacancies respZero 5
        ≠ ((List.range 0).map (fun _ => ([42] : List Nat))).flatten := by
  refine ⟨fun p => ⟨⟨some [42], some 0⟩, rfl, rfl, rfl⟩, rfl, by decide⟩

/-- Claim C2 (amended): when every page below `max P 1` responds with
well-formed items and reports the same `pages = P`, `fetch_all_vacancies`
(with stabilised fuel) returns the concatenation of the items of pages
`0 .. max P 1 - 1` in page order; page 0 is always fetched because the loop
starts with `total_pages = 1`, so for `P = 0` the result is page 0's items
rather than the empty concatenation. -/
theorem C2_fetch_all_vacancies_union {α : Type}
    (resp : Nat → Option (PageData α)) (P : Nat) (its : Nat → List α)
    (h : ∀ p, p < max P 1 → resp p = some ⟨some (its p), some P⟩)
    (fuel : Nat) (hfuel : P + 1 ≤ fuel) :
    fetch_all_vacancies resp fuel = ((List.range (max P 1)).map its).flatten := by
  obtain ⟨f, rfl⟩ : ∃ f, fuel = f + 1 := ⟨fuel - 1, by omega⟩
  unfold fetch_all_vacancies
  have h0 : resp 0 = some ⟨some (its 0), some P⟩ := h 0 (by omega)
  simp only [fetchLoop, if_pos (show (0 : Nat) < 1 by omega), h0,
    Option.getD_some]
  cases P with
  | zero =>
    rw [fetchLoop_stop resp f 1 0 ([] ++ its 0) (by omega)]
    simp [List.range_succ]
  | succ q =>
    have hq : max (q + 1) 1 = q + 1 := by omega
    rw [fetchLoop_concat resp (q + 1) its
        (fun p hp => h p (by omega)) f 1 ([] ++ its 0) (by omega)]
    simp [hq, List.range_eq_range', List.range'_succ, Nat.add_sub_cancel]

/-- Claim C2 witness (the spec's example): three pages, 100 items on pages 0
and 1 and 10 items on page 2, every page reporting `pages = 3`; the result is
the page-order concatenation and has exactly 210 elements. -/
theorem C2_witness :
    (∀ p, p < max 3 1 → resp210 p = some ⟨some (its210 p), some 3⟩)
    ∧ fetch_all_vacancies resp210 4 = ((List.range (max 3 1)).map its210).flatten
    ∧ (fetch_all_vacancies resp210 4).length = 210 := by
  have h : ∀ p, p < max 3 1 → resp210 p = some ⟨some (its210 p), some 3⟩ :=
    fun p _ => rfl
  exact ⟨h, C2_fetch_all_vacancies_union resp210 3 its210 h 4 (by omega), rfl⟩

lemma find_country_url_not_found (countries : List Country)
    (country_name : String)
    (h : ∀ c ∈ countries, c.name ≠ country_name) :
    find_country_url countries country_name = "" := by
  unfold find_country_url
  rw [List.find?_eq_none.mpr (fun c hc => by simp [h c hc])]

lemma find_country_url_first (countries : List Country)
    (country_name : String) :
    ∀ i c, countries[i]? = some c → c.name = country_name →
      (∀ d ∈ countries.take i, d.name ≠ country_name) →
      find_country_url countries country_name = c.url := by
  induction countries with
  | nil => intro i c hc; simp at hc
  | cons c₀ cs ih =>
    intro i c hc hname hprev
    cases i with
    | zero =>
      have hc₀ : c₀ = c := by simpa using hc
      subst hc₀
      unfold find_country_url
      rw [List.find?_cons_of_pos _ (by simp [hname])]
    | succ i' =>
      have hc₀ : c₀.name ≠ country_name := by
        refine hprev c₀ ?_
        simp [List.take_succ_cons]
      unfold find_country_url
      rw [List.find?_cons_of_neg _ (by simp [hc₀])]
      exact ih i' c (by simpa using hc) hname
        (fun d hd => hprev d (by simp [List.take_succ_cons, hd]))

/-- Claim C6: `find_country_url` returns the url of the first country whose
name equals the given name exactly, and returns the empty string (not a
missing-value marker) when no country matches exactly. -/
theorem C6_find_country_url (countries : List Country)
    (country_name : String) :
    (∀ i c, countries[i]? = some c → c.name = country_name →
      (∀ d ∈ countries.take i, d.name ≠ country_name) →
      find_country_url countries country_name = c.url)
    ∧ ((∀ c ∈ countries, c.name ≠ country_name) →
      find_country_url countries country_name = "") :=
  ⟨find_country_url_first countries country_name,
   find_country_url_not_found countries country_name⟩

/-- Claim C6 witness: on a concrete list with two entries named "Russia",
the url of the first one is returned, and an unmatched name yields "". -/
theorem C6_witness :
    (countriesW[1]? = some ⟨"Russia", "https://api.hh.ru/areas/113"⟩)
    ∧ (∀ d ∈ countriesW.take 1, d.name ≠ "Russia")
    ∧ find_country_url countriesW "Russia" = "https://api.hh.ru/areas/113"
    ∧ (∀ c ∈ countriesW, c.name ≠ "Atlantis")
    ∧ find_country_url countriesW "Atlantis" = "" := by
  refine ⟨rfl, by decide, ?_, by decide, ?_⟩
  · exact (C6_find_country_url countriesW "Russia").1 1
      ⟨"Russia", "https://api.hh.ru/areas/113"⟩ rfl rfl (by decide)
  · exact (C6_find_country_url countriesW "Atlantis").2 (by decide)

/-- Claim C9: `refresh_access_token` returns `false` on every failure —
transport error, non-2xx status, or a response body without an access
token — leaving the client state untouched, and returns `true` only when it
has replaced the in-memory token, the authorization header, and the
persisted .env token with the new value. (The Python `except` clause turns
every raised `RequestException` into `False`; totality of the embedding is
the no-exception-escapes boundary.) -/
theorem C9_refresh_access_token (post : PostResult) (st : ClientState) :
    ((refresh_access_token post st).1 = false →
      (refresh_access_token post st).2 = st)
    ∧ ((refresh_access_token post st).1 = true →
      ∃ t status, post = PostResult.response status (some t) ∧ status < 400
        ∧ t ≠ ""
        ∧ (refresh_access_token post st).2.ACCESS_TOKEN = t
        ∧ (refresh_access_token post st).2.authorization = "Bearer " ++ t
        ∧ (refresh_access_token post st).2.env_access_token = t)
    ∧ (post = PostResult.transportError →
      (refresh_access_token post st).1 = false)
    ∧ (∀ status tok, post = PostResult.response status tok → 400 ≤ status →
      (refresh_access_token post st).1 = false)
    ∧ (∀ status, post = PostResult.response status none →
      (refresh_access_token post st).1 = false)
    ∧ (∀ status, post = PostResult.response status (some "") →
      (refresh_access_token post st).1 = false) := by
  cases post with
  | transportError =>
    refine ⟨fun _ => rfl, fun h => absurd h (by simp [refresh_access_token]),
      fun _ => rfl, ?_, ?_, ?_⟩
    · intro s k h; cases h
    · intro s h; cases h
    · intro s h; cases h
  | response status tok =>
    by_cases h4 : 400 ≤ status
    · have hres : refresh_access_token (.response status tok) st = (false, st) := by
        cases tok <;> simp [refresh_access_token, h4]
      refine ⟨?_, ?_, ?_, ?_, ?_, ?_⟩
      · intro _; rw [hres]
      · intro h; rw [hres] at h; exact absurd h (by simp)
      · intro h; cases h
      · intro s k h h4'; rw [hres]
      · intro s h; rw [hres]
      · intro s h; rw [hres]
    · cases tok with
      | none =>
        have hres : refresh_access_token (.response status none) st
            = (false, st) := by simp [refresh_access_token, h4]
        refine ⟨?_, ?_, ?_, ?_, ?_, ?_⟩
        · intro _; rw [hres]
        · intro h; rw [hres] at h; exact absurd h (by simp)
        · intro h; cases h
        · intro s k h h4'; cases h; exact absurd h4' h4
        · intro s h; rw [hres]
        · intro s h; cases h
      | some t =>
        by_cases ht : t = ""
        · subst ht
          have hres : refresh_access_token (.response status (some "")) st
              = (false, st) := by simp [refresh_access_token, h4]
          refine ⟨?_, ?_, ?_, ?_, ?_, ?_⟩
          · intro _; rw [hres]
          · intro h; rw [hres] at h; exact absurd h (by simp)
          · intro h; cases h
          · intro s k h h4'; cases h; exact absurd h4' h4
          · intro s h; cases h
          · intro s h; rw [hres]
        · have hres : refresh_access_token (.response status (some t)) st
              = (true, ⟨t, "Bearer " ++ t, t⟩) := by
            simp [refresh_access_token, h4, ht]
          refine ⟨?_, ?_, ?_, ?_, ?_, ?_⟩
          · intro h; rw [hres] at h; exact absurd h (by simp)
          · intro _
            exact ⟨t, status, rfl, by omega, ht, by rw [hres], by rw [hres],
              by rw [hres]⟩
          · intro h; cases h
          · intro s k h h4'; cases h; exact absurd h4' h4
          · intro s h; cases h
          · intro s h; cases h; exact absurd rfl ht

/-- Claim C9 witness: a transport failure returns `false` and leaves the
state untouched; a 200 response with a fresh token returns `true` and
updates the in-memory token, the header, and the persisted token. -/
theorem C9_witness :
    ((refresh_access_token PostResult.transportError stW).1 = false)
    ∧ (refresh_access_token PostResult.transportError stW).2 = stW
    ∧ (refresh_access_token postW stW).1 = true
    ∧ (∃ t status, postW = PostResult.response status (some t) ∧ status < 400
        ∧ t ≠ ""
        ∧ (refresh_access_token postW stW).2.ACCESS_TOKEN = t
        ∧ (refresh_access_token postW stW).2.authorization = "Bearer " ++ t
        ∧ (refresh_access_token postW stW).2.env_access_token = t) := by
  refine ⟨rfl, ?_, rfl, ?_⟩
  · exact (C9_refresh_access_token PostResult.transportError stW).1 rfl
  · exact (C9_refresh_access_token postW stW).2.1 rfl

/-- Claim C4: for every GET through `_get`, a 401 first response triggers
exactly one `refresh_access_token` attempt; if the refresh succeeds there is
exactly one retry of the same GET, performed with the refreshed header; if
the refresh fails the call returns `none` with no retry; if the retried GET
fails (transport error or any status ≥ 400) the call returns `none` without
a second refresh. In every case at most one refresh and at most two GETs
happen. -/
theorem C4_get_single_refresh_retry {α : Type} (net : String → HttpResult α)
    (post : PostResult) (st : ClientState) :
    ((_get net post st).1.refresh_attempts ≤ 1
      ∧ ((_get net post st).1.get_headers).length ≤ 2)
    ∧ (∀ body, net st.authorization = HttpResult.response 401 body →
        (_get net post st).1.refresh_attempts = 1
        ∧ ((refresh_access_token post st).1 = true →
            (_get net post st).1.get_headers
              = [st.authorization, (refresh_access_token post st).2.authorization])
        ∧ ((refresh_access_token post st).1 = false →
            (_get net post st).1.result = none
            ∧ (_get net post st).1.get_headers = [st.authorization])
        ∧ ((refresh_access_token post st).1 = true →
            net (refresh_access_token post st).2.authorization
              = HttpResult.transportError →
            (_get net post st).1.result = none)
        ∧ (∀ status₂ body₂, (refresh_access_token post st).1 = true →
            net (refresh_access_token post st).2.authorization
              = HttpResult.response status₂ body₂ →
            400 ≤ status₂ → (_get net post st).1.result = none))
    ∧ (∀ status body, net st.authorization = HttpResult.response status body →
        status ≠ 401 →
        (_get net post st).1.refresh_attempts = 0
          ∧ (_get net post st).1.get_headers = [st.authorization])
    ∧ (net st.authorization = HttpResult.transportError →
        (_get net post st).1.refresh_attempts = 0
        ∧ (_get net post st).1.result = none
        ∧ (_get net post st).1.get_headers = [st.authorization]) := by
  cases hfirst : net st.authorization with
  | transportError => simp [_get, hfirst]
  | response status body =>
    by_cases h401 : status = 401
    · subst h401
      rcases hfr : refresh_access_token post st with ⟨b, st'⟩
      cases b
      · simp [_get, hfirst, hfr]
      · cases hsecond : net st'.authorization with
        | transportError => simp [_get, hfirst, hfr, hsecond]
        | response status₂ body₂ =>
          by_cases h4 : 400 ≤ status₂
          · simp [_get, hfirst, hfr, hsecond, h4]
          · simp [_get, hfirst, hfr, hsecond, h4]
            omega
    · by_cases h4 : 400 ≤ status <;>
        simp [_get, hfirst, h401, h4]

lemma find_one_eq_false (db : List StoredVacancy) (i : Nat) (d : String) :
    find_one db i d = false ↔ ∀ doc ∈ db, ¬(doc.id = i ∧ doc.entry_date = d) := by
  simp [find_one]

lemma saveStep_insert (insert_ok : StoredVacancy → Bool)
    (today area_name : String) (st : SaveState) (v : Vacancy)
    (hf : find_one st.db v.id today = false)
    (hok : insert_ok (stamp today area_name v) = true) :
    saveStep insert_ok today area_name st v
      = { st with db := st.db ++ [stamp today area_name v],
                  inserted := st.inserted + 1 } := by
  simp [saveStep, stamp] at hf hok ⊢
  simp [hf, hok]

lemma saveStep_duplicate (insert_ok : StoredVacancy → Bool)
    (today area_name : String) (st : SaveState) (v : Vacancy)
    (hf : find_one st.db v.id today = true) :
    saveStep insert_ok today area_name st v
      = { st with duplicates := st.duplicates + 1 } := by
  simp [saveStep, stamp] at hf ⊢
  simp [hf]

lemma saveStep_skip (insert_ok : StoredVacancy → Bool)
    (today area_name : String) (st : SaveState) (v : Vacancy)
    (hf : find_one st.db v.id today = false)
    (hok : insert_ok (stamp today area_name v) = false) :
    saveStep insert_ok today area_name st v = st := by
  simp [saveStep, stamp] at hf hok ⊢
  simp [hf, hok]

lemma saveStep_noDupKeys (insert_ok : StoredVacancy → Bool)
    (today area_name : String) (st : SaveState) (v : Vacancy)
    (h : NoDupKeys st.db) : NoDupKeys (saveStep insert_ok today area_name st v).db := by
  by_cases hf : find_one st.db v.id today
  · rw [saveStep_duplicate insert_ok today area_name st v hf]
    exact h
  · by_cases hok : insert_ok (stamp today area_name v)
    · rw [saveStep_insert insert_ok today area_name st v
        (Bool.not_eq_true _ ▸ hf) hok]
      unfold NoDupKeys at h ⊢
      rw [List.pairwise_append]
      refine ⟨h, by simp, ?_⟩
      intro a ha b hb
      have hb' : b = stamp today area_name v := by simpa using hb
      subst hb'
      have := (find_one_eq_false st.db v.id today).mp (Bool.not_eq_true _ ▸ hf)
      intro hcontra
      exact this a ha ⟨hcontra.1, hcontra.2⟩
    · rw [saveStep_skip insert_ok today area_name st v
        (Bool.not_eq_true _ ▸ hf) (Bool.not_eq_true _ ▸ hok)]
      exact h

lemma saveStep_db_append (insert_ok : StoredVacancy → Bool)
    (today area_name : String) (st : SaveState) (v : Vacancy) :
    ∃ ext, (saveStep insert_ok today area_name st v).db = st.db ++ ext := by
  cases hf : find_one st.db v.id today with
  | true =>
    rw [saveStep_duplicate insert_ok today area_name st v hf]
    exact ⟨[], by simp⟩
  | false =>
    cases hok : insert_ok (stamp today area_name v) with
    | true =>
      rw [saveStep_insert insert_ok today area_name st v hf hok]
      exact ⟨[stamp today area_name v], rfl⟩
    | false =>
      rw [saveStep_skip insert_ok today area_name st v hf hok]
      exact ⟨[], by simp⟩

lemma saveLoop_db_append (insert_ok : StoredVacancy → Bool)
    (today area_name : String) :
    ∀ (vs : List Vacancy) (st : SaveState),
      ∃ ext, (saveLoop insert_ok today area_name vs st).db = st.db ++ ext := by
  intro vs
  induction vs with
  | nil => intro st; exact ⟨[], by simp [saveLoop]⟩
  | cons v vs ih =>
    intro st
    obtain ⟨ext₁, h₁⟩ := saveStep_db_append insert_ok today area_name st v
    obtain ⟨ext₂, h₂⟩ := ih (saveStep insert_ok today area_name st v)
    refine ⟨ext₁ ++ ext₂, ?_⟩
    show (saveLoop insert_ok today area_name vs _).db = _
    rw [h₂, h₁, List.append_assoc]

lemma find_one_append_left (db ext : List StoredVacancy) (i : Nat) (d : String)
    (h : find_one db i d = true) : find_one (db ++ ext) i d = true := by
  simp only [find_one, List.any_append, Bool.or_eq_true]
  exact Or.inl h

lemma saveLoop_all_duplicates (insert_ok : StoredVacancy → Bool)
    (today area_name : String) :
    ∀ (vs : List Vacancy) (st : SaveState),
      (∀ v ∈ vs, find_one st.db v.id today = true) →
      saveLoop insert_ok today area_name vs st
        = { st with duplicates := st.duplicates + vs.length } := by
  intro vs
  induction vs with
  | nil => intro st _; simp [saveLoop]
  | cons v vs ih =>
    intro st h
    have hv : find_one st.db v.id today = true := h v (by simp)
    show saveLoop insert_ok today area_name vs
        (saveStep insert_ok today area_name st v) = _
    rw [saveStep_duplicate insert_ok today area_name st v hv]
    rw [ih { db := st.db, inserted := st.inserted, duplicates := st.duplicates + 1 }
      (fun w hw => h w (by simp [hw]))]
    simp only [SaveState.mk.injEq, List.length_cons]
    refine ⟨trivial, trivial, by omega⟩

lemma saveLoop_found_after (today area_name : String) :
    ∀ (vs : List Vacancy) (st : SaveState), ∀ v ∈ vs,
      find_one (saveLoop (fun _ => true) today area_name vs st).db
        v.id today = true := by
  intro vs
  induction vs with
  | nil => intro st v hv; cases hv
  | cons w vs ih =>
    intro st v hv
    rcases List.mem_cons.mp hv with hvw | hvv
    · subst hvw
      have hstep : find_one
          (saveStep (fun _ => true) today area_name st v).db v.id today = true := by
        cases hf : find_one st.db v.id today with
        | true =>
          rw [saveStep_duplicate (fun _ => true) today area_name st v hf]
          exact hf
        | false =>
          rw [saveStep_insert (fun _ => true) today area_name st v hf rfl]
          simp [find_one, List.any_append, stamp]
      obtain ⟨ext, hext⟩ := saveLoop_db_append (fun _ => true) today area_name vs
        (saveStep (fun _ => true) today area_name st v)
      show find_one (saveLoop (fun _ => true) today area_name vs _).db
          v.id today = true
      rw [hext]
      exact find_one_append_left _ ext v.id today hstep
    · exact ih (saveStep (fun _ => true) today area_name st w) v hvv

lemma saveLoop_noDupKeys (insert_ok : StoredVacancy → Bool)
    (today area_name : String) :
    ∀ (vs : List Vacancy) (st : SaveState), NoDupKeys st.db →
      NoDupKeys (saveLoop insert_ok today area_name vs st).db := by
  intro vs
  induction vs with
  | nil => intro st h; exact h
  | cons v vs ih =>
    intro st h
    exact ih (saveStep insert_ok today area_name st v)
      (saveStep_noDupKeys insert_ok today area_name st v h)

/-- Claim C1: a listing is inserted by `save_vacancies_to_db`'s loop exactly
when no stored document with the same id and the same `entry_date` (the
current day stamp) exists (stated here with succeeding inserts, the case the
claim describes); consequently the key-uniqueness invariant — never a second
stored document with the same `(id, entry_date)` pair — is preserved by any
run, re-running the same batch on the same calendar day inserts nothing
(every listing counts as a duplicate and the store is unchanged), while on
a later calendar day (no stored document of that id carries today's date)
the listing is inserted again alongside the old documents. -/
theorem C1_same_day_dedup (today area_name : String) :
    (∀ st v, find_one st.db v.id today = false →
      saveStep (fun _ => true) today area_name st v
        = { st with db := st.db ++ [stamp today area_name v],
                    inserted := st.inserted + 1 })
    ∧ (∀ st v, find_one st.db v.id today = true →
      saveStep (fun _ => true) today area_name st v
        = { st with duplicates := st.duplicates + 1 })
    ∧ (∀ (insert_ok : StoredVacancy → Bool) vs db, NoDupKeys db →
      NoDupKeys (saveLoop insert_ok today area_name vs ⟨db, 0, 0⟩).db)
    ∧ (∀ (insert_ok : StoredVacancy → Bool) (vs : List Vacancy) db,
      saveLoop insert_ok today area_name vs
          ⟨(saveLoop (fun _ => true) today area_name vs ⟨db, 0, 0⟩).db, 0, 0⟩
        = ⟨(saveLoop (fun _ => true) today area_name vs ⟨db, 0, 0⟩).db, 0,
            vs.length⟩)
    ∧ (∀ db v, (∀ doc ∈ db, doc.id = v.id → doc.entry_date ≠ today) →
      stamp today area_name v
          ∈ (saveLoop (fun _ => true) today area_name [v] ⟨db, 0, 0⟩).db
        ∧ ∀ doc ∈ db,
          doc ∈ (saveLoop (fun _ => true) today area_name [v] ⟨db, 0, 0⟩).db) := by
  refine ⟨?_, ?_, ?_, ?_, ?_⟩
  · intro st v hf
    exact saveStep_insert _ today area_name st v hf rfl
  · intro st v hf
    exact saveStep_duplicate _ today area_name st v hf
  · intro insert_ok vs db h
    exact saveLoop_noDupKeys insert_ok today area_name vs ⟨db, 0, 0⟩ h
  · intro insert_ok vs db
    have h := saveLoop_found_after today area_name vs ⟨db, 0, 0⟩
    have hdup := saveLoop_all_duplicates insert_ok today area_name vs
      ⟨(saveLoop (fun _ => true) today area_name vs ⟨db, 0, 0⟩).db, 0, 0⟩
      (fun v hv => h v hv)
    simpa using hdup
  · intro db v h
    have hf : find_one db v.id today = false := by
      rw [find_one_eq_false]
      intro doc hdoc hcontra
      exact h doc hdoc hcontra.1 hcontra.2
    have hstep : saveLoop (fun _ => true) today area_name [v] ⟨db, 0, 0⟩
        = { db := db ++ [stamp today area_name v], inserted := 1, duplicates := 0 } := by
      show saveStep (fun _ => true) today area_name ⟨db, 0, 0⟩ v = _
      rw [saveStep_insert (fun _ => true) today area_name ⟨db, 0, 0⟩ v hf rfl]
    rw [hstep]
    exact ⟨by simp, fun doc hdoc => by simp [hdoc]⟩

/-- Claim C1 witness: a document stored under the previous day's date does
not block re-insertion on the current day — the old and the new document
coexist — and the key-uniqueness invariant holds before and after. -/
theorem C1_witness :
    (∀ doc ∈ dbW, doc.id = vW.id → doc.entry_date ≠ todayW)
    ∧ stamp todayW areaNameW vW
        ∈ (saveLoop (fun _ => true) todayW areaNameW [vW] ⟨dbW, 0, 0⟩).db
    ∧ (∀ doc ∈ dbW,
        doc ∈ (saveLoop (fun _ => true) todayW areaNameW [vW] ⟨dbW, 0, 0⟩).db)
    ∧ NoDupKeys dbW
    ∧ NoDupKeys (saveLoop (fun _ => true) todayW areaNameW [vW] ⟨dbW, 0, 0⟩).db
    ∧ saveLoop (fun _ => true) todayW areaNameW [vW]
          ⟨(saveLoop (fun _ => true) todayW areaNameW [vW] ⟨dbW, 0, 0⟩).db, 0, 0⟩
        = ⟨(saveLoop (fun _ => true) todayW areaNameW [vW] ⟨dbW, 0, 0⟩).db,
            0, 1⟩ := by
  have hday : ∀ doc ∈ dbW, doc.id = vW.id → doc.entry_date ≠ todayW := by decide
  have hnodup : NoDupKeys dbW := by simp [NoDupKeys, dbW]
  refine ⟨hday, ?_, ?_, hnodup, ?_, ?_⟩
  · exact ((C1_same_day_dedup todayW areaNameW).2.2.2.2 dbW vW hday).1
  · exact ((C1_same_day_dedup todayW areaNameW).2.2.2.2 dbW vW hday).2
  · exact (C1_same_day_dedup todayW areaNameW).2.2.1 (fun _ => true) [vW] dbW hnodup
  · exact (C1_same_day_dedup todayW areaNameW).2.2.2.1 (fun _ => true) [vW] dbW

/-- Claim C7: an insert failure on one listing does not abort the batch —
the loop state after any prefix feeds the rest of the batch unchanged
(compositionality over `++`), a listing whose insert fails leaves the state
exactly as it was so the loop simply continues with the next listing, and
`save_vacancies_to_db` sends exactly one summary message, after the full
batch, carrying the two counters. -/
theorem C7_insert_failure_does_not_abort
    (insert_ok : StoredVacancy → Bool) (today area_name : String) :
    (∀ (vs₁ vs₂ : List Vacancy) (st : SaveState),
      saveLoop insert_ok today area_name (vs₁ ++ vs₂) st
        = saveLoop insert_ok today area_name vs₂
            (saveLoop insert_ok today area_name vs₁ st))
    ∧ (∀ (v : Vacancy) (vs : List Vacancy) (st : SaveState),
      find_one st.db v.id today = false →
      insert_ok (stamp today area_name v) = false →
      saveLoop insert_ok today area_name (v :: vs) st
        = saveLoop insert_ok today area_name vs st)
    ∧ (∀ (vs : List Vacancy) (db : List StoredVacancy),
      (save_vacancies_to_db insert_ok today vs area_name db).2
        = ["Inserted: "
            ++ toString (save_vacancies_to_db insert_ok today vs area_name db).1.inserted
            ++ ", Duplicates: "
            ++ toString (save_vacancies_to_db insert_ok today vs area_name db).1.duplicates]) := by
  refine ⟨?_, ?_, ?_⟩
  · intro vs₁ vs₂ st
    exact List.foldl_append ..
  · intro v vs st hf hok
    show saveLoop insert_ok today area_name vs
        (saveStep insert_ok today area_name st v) = _
    rw [saveStep_skip insert_ok today area_name st v hf hok]
  · intro vs db
    rfl

/-- Claim C7 witness: in the two-listing batch `[v7, v8]` the insert of `v7`
fails under `okW`, yet `v8` is still attempted and inserted, and exactly one
summary message is sent. -/
theorem C7_witness :
    find_one (⟨[], 0, 0⟩ : SaveState).db v7.id todayW = false
    ∧ okW (stamp todayW areaNameW v7) = false
    ∧ saveLoop okW todayW areaNameW [v7, v8] ⟨[], 0, 0⟩
        = saveLoop okW todayW areaNameW [v8] ⟨[], 0, 0⟩
    ∧ (saveLoop okW todayW areaNameW [v7, v8] ⟨[], 0, 0⟩).inserted = 1
    ∧ (save_vacancies_to_db okW todayW [v7, v8] areaNameW []).2
        = ["Inserted: 1, Duplicates: 0"] := by
  refine ⟨rfl, by decide, ?_, by decide, by decide⟩
  exact (C7_insert_failure_does_not_abort okW todayW areaNameW).2.1 v7 [v8]
    ⟨[], 0, 0⟩ rfl (by decide)

lemma saveStep_counts (insert_ok : StoredVacancy → Bool)
    (today area_name : String) (st : SaveState) (v : Vacancy) :
    (saveStep insert_ok today area_name st v).inserted
      + (saveStep insert_ok today area_name st v).duplicates
      + (if find_one st.db (stamp today area_name v).id
              (stamp today area_name v).entry_date = false
            ∧ insert_ok (stamp today area_name v) = false then 1 else 0)
      = st.inserted + st.duplicates + 1 := by
  cases hf : find_one st.db v.id today with
  | true =>
    rw [saveStep_duplicate insert_ok today area_name st v hf]
    simp only [stamp] at hf ⊢
    simp [hf]
    omega
  | false =>
    cases hok : insert_ok (stamp today area_name v) with
    | true =>
      rw [saveStep_insert insert_ok today area_name st v hf hok]
      simp only [stamp] at hf hok ⊢
      simp [hf, hok]
      omega
    | false =>
      rw [saveStep_skip insert_ok today area_name st v hf hok]
      simp only [stamp] at hf hok ⊢
      simp [hf, hok]

lemma saveLoop_counts (insert_ok : StoredVacancy → Bool)
    (today area_name : String) :
    ∀ (vs : List Vacancy) (st : SaveState),
      (saveLoop insert_ok today area_name vs st).inserted
        + (saveLoop insert_ok today area_name vs st).duplicates
        + failCount insert_ok today area_name st vs
      = st.inserted + st.duplicates + vs.length := by
  intro vs
  induction vs with
  | nil => intro st; simp [saveLoop, failCount]
  | cons v vs ih =>
    intro st
    have hstep := saveStep_counts insert_ok today area_name st v
    have htail := ih (saveStep insert_ok today area_name st v)
    show (saveLoop insert_ok today area_name vs _).inserted
        + (saveLoop insert_ok today area_name vs _).duplicates
        + failCount insert_ok today area_name st (v :: vs) = _
    rw [show failCount insert_ok today area_name st (v :: vs)
        = (if find_one st.db (stamp today area_name v).id
                (stamp today area_name v).entry_date = false
              ∧ insert_ok (stamp today area_name v) = false then 1 else 0)
          + failCount insert_ok today area_name
              (saveStep insert_ok today area_name st v) vs from rfl]
    simp only [List.length_cons]
    omega

/-- Claim C10 (implicit): the reported counts of `save_vacancies_to_db`
satisfy inserted + duplicates ≤ N for a batch of N listings, the deficit
being exactly the number of listings whose insert raised; equality holds
exactly when no insert fails. -/
theorem C10_counts_bound (insert_ok : StoredVacancy → Bool)
    (today area_name : String) (vs : List Vacancy) (db : List StoredVacancy) :
    ((save_vacancies_to_db insert_ok today vs area_name db).1.inserted
        + (save_vacancies_to_db insert_ok today vs area_name db).1.duplicates
        + failCount insert_ok today area_name ⟨db, 0, 0⟩ vs = vs.length)
    ∧ ((save_vacancies_to_db insert_ok today vs area_name db).1.inserted
        + (save_vacancies_to_db insert_ok today vs area_name db).1.duplicates
        ≤ vs.length)
    ∧ (failCount insert_ok today area_name ⟨db, 0, 0⟩ vs = 0
      ↔ (save_vacancies_to_db insert_ok today vs area_name db).1.inserted
          + (save_vacancies_to_db insert_ok today vs area_name db).1.duplicates
          = vs.length) := by
  have h := saveLoop_counts insert_ok today area_name vs ⟨db, 0, 0⟩
  have h0 : (⟨db, 0, 0⟩ : SaveState).inserted = 0 := rfl
  have h1 : (⟨db, 0, 0⟩ : SaveState).duplicates = 0 := rfl
  rw [h0, h1] at h
  have heq : (save_vacancies_to_db insert_ok today vs area_name db).1
      = saveLoop insert_ok today area_name vs ⟨db, 0, 0⟩ := rfl
  rw [heq]
  exact ⟨by omega, by omega, by omega⟩

/-- Claim C10 witness: in the batch `[v7, v8]` the insert of `v7` fails, so
inserted + duplicates = 1 < 2 and the deficit is the single failed insert. -/
theorem C10_witness :
    failCount okW todayW areaNameW ⟨[], 0, 0⟩ [v7, v8] = 1
    ∧ (save_vacancies_to_db okW todayW [v7, v8] areaNameW []).1.inserted
        + (save_vacancies_to_db okW todayW [v7, v8] areaNameW []).1.duplicates
        + failCount okW todayW areaNameW ⟨[], 0, 0⟩ [v7, v8] = 2 := by
  refine ⟨by decide, ?_⟩
  exact (C10_counts_bound okW todayW areaNameW [v7, v8] []).1

lemma dedupRolesInCategory_fst_mem (roles : List Role) :
    ∀ (ids : List Nat) (x : Nat),
      x ∈ (dedupRolesInCategory ids roles).1 ↔ x ∈ ids ∨ x ∈ roleIds roles := by
  induction roles with
  | nil => intro ids x; simp [dedupRolesInCategory, roleIds]
  | cons r rs ih =>
    intro ids x
    by_cases hr : r.id ∈ ids
    · rw [show dedupRolesInCategory ids (r :: rs)
          = dedupRolesInCategory ids rs by simp [dedupRolesInCategory, hr]]
      rw [ih ids x]
      simp only [roleIds, List.map_cons, List.mem_cons]
      constructor
      · rintro (hx | hx)
        · exact Or.inl hx
        · exact Or.inr (Or.inr hx)
      · rintro (hx | hx | hx)
        · exact Or.inl hx
        · exact Or.inl (hx ▸ hr)
        · exact Or.inr hx
    · rcases hd : dedupRolesInCategory (r.id :: ids) rs with ⟨ids', kept⟩
      rw [show dedupRolesInCategory ids (r :: rs) = (ids', r :: kept) by
        simp [dedupRolesInCategory, hr, hd]]
      have := ih (r.id :: ids) x
      rw [hd] at this
      simp only [List.mem_cons, roleIds] at this
      simp only [roleIds, List.map_cons, List.mem_cons]
      rw [this]
      tauto

lemma dedupRolesInCategory_snd_spec (roles : List Role) :
    ∀ (ids earlier : List Nat), (∀ x, x ∈ ids ↔ x ∈ earlier) →
      (dedupRolesInCategory ids roles).2 = specKeep earlier roles := by
  induction roles with
  | nil => intro ids earlier _; simp [dedupRolesInCategory, specKeep]
  | cons r rs ih =>
    intro ids earlier hiff
    have hmem : ∀ x, x ∈ ids ∨ x = r.id ↔ x ∈ earlier ++ [r.id] := by
      intro x
      simp only [List.mem_append, List.mem_singleton]
      rw [hiff x]
    by_cases hr : r.id ∈ ids
    · rw [show dedupRolesInCategory ids (r :: rs)
          = dedupRolesInCategory ids rs by simp [dedupRolesInCategory, hr]]
      rw [show specKeep earlier (r :: rs)
          = (if r.id ∈ earlier then [] else [r]) ++ specKeep (earlier ++ [r.id]) rs
        from rfl]
      rw [if_pos ((hiff r.id).mp hr), List.nil_append]
      exact ih ids (earlier ++ [r.id]) fun x => by
        rw [← hmem x, hiff x]
        constructor
        · exact Or.inl
        · rintro (hx | hx)
          · exact hx
          · exact hx ▸ (hiff r.id).mp hr
    · rcases hd : dedupRolesInCategory (r.id :: ids) rs with ⟨ids', kept⟩
      rw [show dedupRolesInCategory ids (r :: rs) = (ids', r :: kept) by
        simp [dedupRolesInCategory, hr, hd]]
      rw [show specKeep earlier (r :: rs)
          = (if r.id ∈ earlier then [] else [r]) ++ specKeep (earlier ++ [r.id]) rs
        from rfl]
      rw [if_neg (fun hc => hr ((hiff r.id).mpr hc)), List.singleton_append]
      have := ih (r.id :: ids) (earlier ++ [r.id]) fun x => by
        simp only [List.mem_cons]
        rw [← hmem x]
        tauto
      rw [hd] at this
      rw [show kept = specKeep (earlier ++ [r.id]) rs from this]

lemma filterRoles_eq_spec (cats : List Category) :
    ∀ (ids earlier : List Nat), (∀ x, x ∈ ids ↔ x ∈ earlier) →
      filterRoles ids cats = specFilterCats earlier cats := by
  induction cats with
  | nil => intro ids earlier _; rfl
  | cons c cs ih =>
    intro ids earlier hiff
    rcases hd : dedupRolesInCategory ids c.roles with ⟨ids', kept⟩
    have hkept : kept = specKeep earlier c.roles := by
      have := dedupRolesInCategory_snd_spec c.roles ids earlier hiff
      rw [hd] at this
      exact this
    have hrest : filterRoles ids' cs
        = specFilterCats (earlier ++ roleIds c.roles) cs := by
      refine ih ids' (earlier ++ roleIds c.roles) fun x => ?_
      have := dedupRolesInCategory_fst_mem c.roles ids x
      rw [hd] at this
      simp only [List.mem_append]
      rw [show (ids', kept).1 = ids' from rfl] at this
      rw [this, hiff x]
    rw [show filterRoles ids (c :: cs)
        = (if kept = [] then filterRoles ids' cs
            else { roles := kept } :: filterRoles ids' cs) by
      simp [filterRoles, hd]]
    rw [show specFilterCats earlier (c :: cs)
        = (if specKeep earlier c.roles = []
            then specFilterCats (earlier ++ roleIds c.roles) cs
            else { roles := specKeep earlier c.roles }
              :: specFilterCats (earlier ++ roleIds c.roles) cs) from rfl]
    rw [hkept, hrest]

/-- Claim C5: the orchestrator's role deduplication keeps, within each
category in original order, exactly those roles whose id did not occur in an
earlier category or earlier in the same category (first occurrence wins):
the source loop agrees with the spec-side `specFilterCats`, and on the
spec's example `[{roles:[1,2]}, {roles:[2,3]}]` the surviving working set is
roles 1,2 for the first category and role 3 for the second. -/
theorem C5_role_dedup :
    (∀ cats : List Category, filterRoles [] cats = specFilterCats [] cats)
    ∧ filterRoles []
        [⟨[⟨1, "r1"⟩, ⟨2, "r2"⟩]⟩, ⟨[⟨2, "r2"⟩, ⟨3, "r3"⟩]⟩]
      = [⟨[⟨1, "r1"⟩, ⟨2, "r2"⟩]⟩, ⟨[⟨3, "r3"⟩]⟩] :=
  ⟨fun cats => filterRoles_eq_spec cats [] [] (fun x => Iff.rfl), by decide⟩

lemma processRole_fetched (fetchRes : Nat → Nat → List Vacancy)
    (insert_ok : StoredVacancy → Bool) (today : String) (area : Area)
    (acc : SweepResult) (role : Role) :
    (processRole fetchRes insert_ok today area acc role).fetched_pairs
      = acc.fetched_pairs ++ [(area.id, role.id)] := rfl

lemma rolesFoldl_fetched (fetchRes : Nat → Nat → List Vacancy)
    (insert_ok : StoredVacancy → Bool) (today : String) (area : Area) :
    ∀ (roles : List Role) (acc : SweepResult),
      (roles.foldl (processRole fetchRes insert_ok today area) acc).fetched_pairs
        = acc.fetched_pairs ++ roles.map (fun r => (area.id, r.id)) := by
  intro roles
  induction roles with
  | nil => intro acc; simp
  | cons r rs ih =>
    intro acc
    rw [List.foldl_cons, ih, processRole_fetched]
    simp

lemma catsFoldl_fetched (fetchRes : Nat → Nat → List Vacancy)
    (insert_ok : StoredVacancy → Bool) (today : String) (area : Area) :
    ∀ (cats : List Category) (acc : SweepResult),
      (cats.foldl (processCategory fetchRes insert_ok today area) acc).fetched_pairs
        = acc.fetched_pairs
          ++ cats.flatMap (fun c => c.roles.map fun r => (area.id, r.id)) := by
  intro cats
  induction cats with
  | nil => intro acc; simp
  | cons c cs ih =>
    intro acc
    rw [List.foldl_cons,
      show processCategory fetchRes insert_ok today area acc c
        = c.roles.foldl (processRole fetchRes insert_ok today area) acc from rfl,
      ih, rolesFoldl_fetched]
    simp

lemma processArea_fetched (fetchRes : Nat → Nat → List Vacancy)
    (insert_ok : StoredVacancy → Bool) (today : String)
    (filtered_roles : List Category) (acc : SweepResult) (area : Area) :
    (processArea fetchRes insert_ok today filtered_roles acc area).fetched_pairs
      = acc.fetched_pairs
        ++ filtered_roles.flatMap (fun c => c.roles.map fun r => (area.id, r.id)) := by
  unfold processArea
  rw [catsFoldl_fetched]

lemma areasFoldl_fetched (fetchRes : Nat → Nat → List Vacancy)
    (insert_ok : StoredVacancy → Bool) (today : String)
    (filtered_roles : List Category) :
    ∀ (areas : List Area) (acc : SweepResult),
      (areas.foldl (processArea fetchRes insert_ok today filtered_roles) acc).fetched_pairs
        = acc.fetched_pairs
          ++ areas.flatMap (fun a =>
              filtered_roles.flatMap fun c => c.roles.map fun r => (a.id, r.id)) := by
  intro areas
  induction areas with
  | nil => intro acc; simp
  | cons a as ih =>
    intro acc
    rw [List.foldl_cons, ih, processArea_fetched]
    simp

/-- Claim C8: the sweep aborts — document store untouched, no notifications,
no vacancy fetches — exactly on an empty area list or an empty role-category
list; in every other case one vacancy fetch is performed for each pair of a
resolved area and a surviving deduplicated role, whatever the fetch results
and insert failures are (so no other condition aborts the sweep). -/
theorem C8_sweep_abort (fetchRes : Nat → Nat → List Vacancy)
    (insert_ok : StoredVacancy → Bool) (today : String) (areas : List Area)
    (professional_roles : List Category) (db : List StoredVacancy) :
    (areas = [] →
      fetch_and_store_vacancies fetchRes insert_ok today areas
        professional_roles db = ⟨db, [], []⟩)
    ∧ (professional_roles = [] →
      fetch_and_store_vacancies fetchRes insert_ok today areas
        professional_roles db = ⟨db, [], []⟩)
    ∧ (fetch_and_store_vacancies fetchRes insert_ok today areas
        professional_roles db).fetched_pairs
      = areas.flatMap (fun a =>
          (filterRoles [] professional_roles).flatMap fun c =>
            c.roles.map fun r => (a.id, r.id)) := by
  refine ⟨?_, ?_, ?_⟩
  · intro h
    simp [fetch_and_store_vacancies, h]
  · intro h
    by_cases ha : areas = [] <;> simp [fetch_and_store_vacancies, h, ha]
  · by_cases ha : areas = []
    · simp [fetch_and_store_vacancies, ha]
    · by_cases hr : professional_roles = []
      · subst hr
        simp [fetch_and_store_vacancies, ha, filterRoles]
      · simp only [fetch_and_store_vacancies, if_neg ha, if_neg hr]
        rw [areasFoldl_fetched]
        rfl

/-- Claim C8 witness: an empty area list and an empty category list each
abort the sweep with nothing written, fetched or sent; with both nonempty,
every (area, surviving role) pair is fetched even though every insert
fails. -/
theorem C8_witness :
    fetch_and_store_vacancies fetchResW okW todayW [] catsW dbW
        = ⟨dbW, [], []⟩
    ∧ fetch_and_store_vacancies fetchResW okW todayW areasW [] dbW
        = ⟨dbW, [], []⟩
    ∧ (fetch_and_store_vacancies fetchResW okW todayW areasW catsW dbW).fetched_pairs
        = [(1, 10), (1, 11)] := by
  refine ⟨?_, ?_, ?_⟩
  · exact (C8_sweep_abort fetchResW okW todayW [] catsW dbW).1 rfl
  · exact (C8_sweep_abort fetchResW okW todayW areasW [] dbW).2.1 rfl
  · rw [(C8_sweep_abort fetchResW okW todayW areasW catsW dbW).2.2]
    rfl

/-- Claim C4 witness: concrete run where the stale header gets 401, the
refresh succeeds, and the retried GET uses the refreshed header — one
refresh, two GETs. -/
theorem C4_witness :
    netW stW.authorization = HttpResult.response 401 0
    ∧ (refresh_access_token postW stW).1 = true
    ∧ (_get netW postW stW).1.refresh_attempts = 1
    ∧ (_get netW postW stW).1.get_headers
        = [stW.authorization, (refresh_access_token postW stW).2.authorization] := by
  refine ⟨by decide, rfl, ?_, ?_⟩
  · exact ((C4_get_single_refresh_retry netW postW stW).2.1 0 (by decide)).1
  · exact ((C4_get_single_refresh_retry netW postW stW).2.1 0 (by decide)).2.1 rfl

end HhScraper
